import Mathlib

/-!
Shallow embedding of `habitat_transition/spacenearus.py` (the SpaceNearUs
forwarding daemon): the heterogeneous Python values flowing through the
pipeline, the dedup cache manipulated by `payload_telemetry`, the field
mapping of `payload_telemetry` and `listener_telemetry`, the recursive
float stringification `_all_floats_to_str`, and the uploader worker loop.

Modelling conventions:
* Python dicts are association lists in insertion order; `assocGet`,
  `assocSet`, `assocErase` mirror `d[k]`, `d[k] = v`, `del d[k]`.
* Python floats are represented by exact rationals (the value of the
  binary64 where bit-exactness matters, the decimal literal otherwise);
  Python 2 `str(float)` (12 significant figures, `%.12g` style with the
  trailing `.0` quirk) is `pyFloatStr`, and `float(string)` parsing is
  `nearestDouble` (round to nearest binary64, normal range).
* An uncaught Python exception is the `PyResult.exn` outcome; effects
  performed before the raise (state updates, enqueues) are kept.
* Iteration orders that CPython leaves unspecified (dict/set iteration)
  are made deterministic: insertion order for dicts, sorted order for the
  receiver fan-out.
-/

namespace SpaceNearUs

/-- Heterogeneous Python values as they appear in telemetry documents. -/
inductive PyVal : Type
  | str (s : String)
  | int (n : ℤ)
  | float (q : ℚ)
  | bool (b : Bool)
  | none
  | dict (entries : List (String × PyVal))
  | list (elems : List PyVal)

/-- Python dict lookup `d[k]` / `k in d` (first matching key). -/
def assocGet {β : Type} (k : String) : List (String × β) → Option β
  | [] => Option.none
  | (k', v) :: rest => if k' = k then some v else assocGet k rest

/-- Python dict assignment `d[k] = v`: replace in place, else append. -/
def assocSet {β : Type} (k : String) (v : β) : List (String × β) → List (String × β)
  | [] => [(k, v)]
  | (k', v') :: rest => if k' = k then (k', v) :: rest else (k', v') :: assocSet k v rest

/-- Python dict deletion `del d[k]` (on a dict with distinct keys). -/
def assocErase {β : Type} (k : String) (l : List (String × β)) : List (String × β) :=
  l.filter (fun p => p.1 ≠ k)

/-- The shared dedup state: `self.recent_doc_ids` (ordered list of recent
payload telemetry doc ids) and `self.recent_doc_receivers` (doc id ↦ set of
receiver callsigns last reported for it).  The receiver-key lists stored by
the Python code have distinct elements (they are dict key lists) and are
only ever used through `set(...)`, so they are carried as `Finset String`. -/
structure DedupState where
  recentDocIds : List String
  recentDocReceivers : List (String × Finset String)

/-- The state set up in `SpaceNearUs.__init__`: both structures empty. -/
def initState : DedupState := ⟨[], []⟩

/-- The dedup block of `payload_telemetry` (the body of the
`with self.recent_lock:` block, lines 138-157): returns the updated state
and `some newReceivers` when the caller should proceed, `none` for the
"no new receivers" early return. -/
def dedupStep (st : DedupState) (docId : String) (receivers : Finset String) :
    DedupState × Option (Finset String) :=
  match assocGet docId st.recentDocReceivers with
  | some stored =>
      let newReceivers := receivers \ stored
      let st' : DedupState :=
        { st with recentDocReceivers := assocSet docId receivers st.recentDocReceivers }
      if newReceivers = ∅ then (st', Option.none) else (st', some newReceivers)
  | Option.none =>
      let trimmed : DedupState :=
        if 30 < st.recentDocIds.length then
          { recentDocIds := st.recentDocIds.drop (st.recentDocIds.length - 30),
            recentDocReceivers :=
              (st.recentDocIds.take (st.recentDocIds.length - 30)).foldl
                (fun m i => assocErase i m) st.recentDocReceivers }
        else st
      ({ recentDocIds := trimmed.recentDocIds ++ [docId],
         recentDocReceivers := assocSet docId receivers trimmed.recentDocReceivers },
       some receivers)

/-- Fold `dedupStep` over a sequence of (doc id, receiver set) events. -/
def runDedup (st : DedupState) (events : List (String × Finset String)) : DedupState :=
  events.foldl (fun s e => (dedupStep s e.1 e.2).1) st

/-- Python truthiness, as used by `if data["_fix_invalid"]:` and
`data.get("chase", False)`. -/
def pyTruthy : PyVal → Bool
  | .str s => decide (s ≠ "")
  | .int n => decide (n ≠ 0)
  | .float q => decide (q ≠ 0)
  | .bool b => b
  | .none => false
  | .dict l => !l.isEmpty
  | .list l => !l.isEmpty

/-- Two-digit zero-padded rendering, as in `strftime` fields and the
exponent of `%g`. -/
def pad2 (n : ℕ) : String := if n < 10 then "0" ++ toString n else toString n

/-- Drop trailing `'0'` characters (the `%g` trailing-zero strip). -/
def stripTrailingZeros (l : List Char) : List Char :=
  (l.reverse.dropWhile (fun c => c = '0')).reverse

/-- Round a positive rational to 12 significant decimal digits, returning
the significand (an integer in `[10^11, 10^12)`) and the decimal exponent,
with the carry when rounding overflows to `10^12`. -/
def sig12 (q : ℚ) : ℤ × ℤ :=
  let e := Int.log 10 q
  let s := round (q * (10 : ℚ) ^ (11 - e))
  if s = 10 ^ 12 then (10 ^ 11, e + 1) else (s, e)

/-- Python 2 `str` of a positive float value: `%.12g` formatting plus the
`str(float)` quirk of keeping a trailing `.0` on integral values. -/
def pyFloatStrPos (q : ℚ) : String :=
  let p := sig12 q
  let s := p.1.toNat
  let e := p.2
  let ds := Nat.toDigits 10 s
  if e < -4 ∨ 12 ≤ e then
    let mant :=
      match ds with
      | [] => "0"
      | d :: rest =>
          let rest' := stripTrailingZeros rest
          if rest'.isEmpty then String.mk [d]
          else String.mk [d] ++ "." ++ String.mk rest'
    let esign := if e < 0 then "-" else "+"
    mant ++ "e" ++ esign ++ pad2 e.natAbs
  else if e < 0 then
    "0." ++ String.mk (List.replicate (e.natAbs - 1) '0') ++
      String.mk (stripTrailingZeros ds)
  else
    let k := e.toNat + 1
    let frac := stripTrailingZeros (ds.drop k)
    String.mk (ds.take k) ++ "." ++ (if frac.isEmpty then "0" else String.mk frac)

/-- Python 2 `str(float)` ("produces a 12sf float", per the source comment)
on the exact rational value of the float. -/
def pyFloatStr (q : ℚ) : String :=
  if q = 0 then "0.0"
  else if q < 0 then "-" ++ pyFloatStrPos (-q)
  else pyFloatStrPos q

/-- Round a (normal-range, non-tie) rational to the nearest binary64 value:
the model of what Python's `float(string)` parse returns for the decimal
value of the string. -/
def nearestDouble (q : ℚ) : ℚ :=
  if q = 0 then 0
  else
    let s : ℚ := if q < 0 then -1 else 1
    let a := |q|
    let e := Int.log 2 a
    s * (round (a * (2 : ℚ) ^ (52 - e)) : ℚ) * (2 : ℚ) ^ (e - 52)

/-- `SpaceNearUs._all_floats_to_str`: recursively replace every float in a
dict/list structure by its Python 2 `str` rendering, leaving every other
value in place. -/
def allFloatsToStr : PyVal → PyVal
  | .dict l => .dict (l.attach.map (fun p => (p.1.1, allFloatsToStr p.1.2)))
  | .list l => .list (l.attach.map (fun p => allFloatsToStr p.1))
  | .float q => .str (pyFloatStr q)
  | .str s => .str s
  | .int n => .int n
  | .bool b => .bool b
  | .none => .none
decreasing_by
  · rcases p with ⟨⟨k, v⟩, h⟩
    have := List.sizeOf_lt_of_mem h
    simp at this ⊢
    omega
  · rcases p with ⟨v, h⟩
    have := List.sizeOf_lt_of_mem h
    simp
    omega

/-- Minimal JSON string escaping (quote and backslash), standing in for
`json.dumps` string escaping. -/
def jsonEscape (s : String) : String :=
  ⟨s.data.foldr (fun c acc => if c = '"' ∨ c = '\\' then '\\' :: c :: acc else c :: acc) []⟩

/-- Render the separator-joined JSON entries of a dict/list. -/
def joinComma : List String → String
  | [] => ""
  | [x] => x
  | x :: y :: rest => x ++ ", " ++ joinComma (y :: rest)

/-- `json.dumps` on a telemetry value (Python 2 default separators).  In
the pipeline it is only applied after `_all_floats_to_str`, so the float
case (rendered like the rest of the code renders floats) is unreachable
there. -/
def jsonDumps : PyVal → String
  | .str s => "\"" ++ jsonEscape s ++ "\""
  | .int n => toString n
  | .float q => pyFloatStr q
  | .bool b => if b then "true" else "false"
  | .none => "null"
  | .dict l =>
      "\x7b" ++ joinComma (l.attach.map
        (fun ⟨(k, v), h⟩ => "\"" ++ jsonEscape k ++ "\": " ++ jsonDumps v)) ++ "\x7d"
  | .list l =>
      "[" ++ joinComma (l.attach.map (fun ⟨v, h⟩ => jsonDumps v)) ++ "]"
decreasing_by
  · have := List.sizeOf_lt_of_mem h
    simp at this ⊢
    omega
  · have := List.sizeOf_lt_of_mem h
    simp
    omega

/-- `str.replace(":", "")` for the time field: removes every colon. -/
def stripColons (s : String) : String := ⟨s.data.filter (fun c => c ≠ ':')⟩

/-- `key.startswith("_")`. -/
def startsWithUnderscore (s : String) : Bool :=
  match s.data with
  | [] => false
  | c :: _ => c = '_'

/-- The `fields` table of `payload_telemetry` (target param ↦ source data
key), in source order. -/
def payloadFields : List (String × String) :=
  [("vehicle", "payload"), ("lat", "latitude"), ("lon", "longitude"),
   ("alt", "altitude"), ("time", "time"), ("heading", "heading"),
   ("speed", "speed"), ("seq", "sentence_id")]

/-- The `required` defaults of `payload_telemetry` (the Bermuda resting
spot for payloads without a position fix). -/
def payloadRequired : List (String × PyVal) :=
  [("lat", .float (323 / 10)), ("lon", .float (-324 / 5)),
   ("alt", .int 0), ("time", .str "00:00:00")]

/-- `set(fields.values() + ["time"])`: the data keys consumed by the fixed
field list. -/
def usedKeys : List String :=
  ["payload", "latitude", "longitude", "altitude", "time", "heading",
   "speed", "sentence_id", "time"]

/-- `SpaceNearUs._copy_fields`: copy each present source key over the
params under its target name; missing keys are skipped. -/
def copyFields (fields : List (String × String)) (data params : List (String × PyVal)) :
    List (String × PyVal) :=
  fields.foldl
    (fun ps pr =>
      match assocGet pr.2 data with
      | some v => assocSet pr.1 v ps
      | Option.none => ps)
    params

/-- A payload telemetry document as consumed by `payload_telemetry`:
`doc["_id"]`, `doc["data"]`, and the key set of `doc["receivers"]`. -/
structure PayloadDoc where
  docId : String
  data : List (String × PyVal)
  receivers : Finset String

/-- Outcome of a Python call: normal return, or an uncaught exception
propagating out. -/
inductive PyResult (α : Type) : Type
  | ok (a : α)
  | exn

/-- Everything `payload_telemetry` does: the dedup state afterwards, the
parameter dicts pushed onto `upload_queue` (in order), the amount added to
the `good_uploads` counter, and the call outcome. -/
structure PayloadOut where
  state : DedupState
  enqueued : List (List (String × PyVal))
  increment : ℕ
  result : PyResult (Option ℕ)

/-- Build the enqueued params and counters once the dedup step has
produced a non-empty new-receiver set (lines 159-184 of the source).
The `params["time"].replace` call raises (AttributeError) when the time
value is not a string; the fan-out iterates the new receivers in sorted
order (CPython iterates them in unspecified order). -/
def payloadFinish (st' : DedupState) (data : List (String × PyVal))
    (newReceivers : Finset String) : PayloadOut :=
  let params1 := copyFields payloadFields data payloadRequired
  match assocGet "time" params1 with
  | some (.str t) =>
      let params2 := assocSet "time" (.str (stripColons t)) params1
      let unusedData :=
        data.filter (fun p => !(usedKeys.contains p.1) && !(startsWithUnderscore p.1))
      let params3 :=
        assocSet "data" (.str (jsonDumps (allFloatsToStr (.dict unusedData)))) params2
      let params4 := assocSet "pass" (.str "aurora") params3
      let queue := (newReceivers.sort (· ≤ ·)).map
        (fun c => assocSet "callsign" (.str c) params4)
      ⟨st', queue, newReceivers.card, .ok (some newReceivers.card)⟩
  | _ => ⟨st', [], 0, .exn⟩

/-- The `_fix_invalid` guard: `"_fix_invalid" in data and
data["_fix_invalid"]`. -/
def fixInvalidFlag (data : List (String × PyVal)) : Bool :=
  match assocGet "_fix_invalid" data with
  | some v => pyTruthy v
  | Option.none => false

/-- Well-typedness of the time attribute assumed by the source
(`# format of time is HH:MM:SS, checked by validation`): when present it
is a string; a non-string time makes `params["time"].replace` raise. -/
def timeOk (data : List (String × PyVal)) : Bool :=
  match assocGet "time" data with
  | some (PyVal.str _) => true
  | some _ => false
  | Option.none => true

/-- `SpaceNearUs.payload_telemetry`: skip invalid docs, run the dedup step
under the lock, then build and enqueue one param dict per new receiver and
bump the counter by their number. -/
def payloadTelemetry (st : DedupState) (doc : PayloadDoc) : PayloadOut :=
  if fixInvalidFlag doc.data then ⟨st, [], 0, .ok Option.none⟩
  else
    match dedupStep st doc.docId doc.receivers with
    | (st', Option.none) => ⟨st', [], 0, .ok Option.none⟩
    | (st', some newReceivers) => payloadFinish st' doc.data newReceivers

/-- Character-list check used for the substring test below. -/
def leadsChars : List Char → List Char → Bool
  | [], _ => true
  | _ :: _, [] => false
  | c :: cs, d :: ds => c == d && leadsChars cs ds

/-- Substring occurrence on character lists. -/
def hasSubChars (n : List Char) : List Char → Bool
  | [] => n.isEmpty
  | d :: ds => leadsChars n (d :: ds) || hasSubChars n ds

/-- Python's `needle in hay` on strings. -/
def strContains (hay needle : String) : Bool := hasSubChars needle.data hay.data

/-- `data["speed"] * 3.6` (m/s → km/h): defined on Python numbers (ints,
floats, bools), TypeError (`none`) otherwise.  Exact rational arithmetic
stands in for binary64 multiplication. -/
def pyTimes36 : PyVal → Option PyVal
  | .int n => some (.float ((n : ℚ) * (18 / 5)))
  | .float q => some (.float (q * (18 / 5)))
  | .bool b => some (.float (if b then 18 / 5 else 0))
  | _ => Option.none

/-- `time.strftime("%H%M%S", time.gmtime(created))` on an epoch second
count. -/
def hhmmss (t : ℕ) : String :=
  pad2 (t / 3600 % 24) ++ pad2 (t / 60 % 60) ++ pad2 (t % 60)

/-- The `fields` table of `listener_telemetry`, in source order. -/
def listenerFields : List (String × String) :=
  [("vehicle", "callsign"), ("lat", "latitude"), ("lon", "longitude"),
   ("alt", "altitude"), ("speed", "speed")]

/-- A listener telemetry document: `doc["data"]` plus `doc["time_created"]`
already parsed to an epoch timestamp (`rfc3339_to_timestamp` lives in
`habitat.utils`, outside this repository, and is modelled as the parsed
value). -/
structure ListenerDoc where
  data : List (String × PyVal)
  timeCreated : ℕ

/-- What `listener_telemetry` leaves behind: `doc["data"]` after its
in-place mutations, the enqueued param dicts, and the call outcome. -/
structure ListenerOut where
  data : List (String × PyVal)
  enqueued : List (List (String × PyVal))
  result : PyResult (Option ℕ)

/-- The tail of `listener_telemetry` (lines 208-218): build params from the
(already mutated) data, set the derived time and the password, enqueue. -/
def listenerFinish (t : ℕ) (data : List (String × PyVal)) : ListenerOut :=
  let params0 := copyFields listenerFields data []
  let params1 := assocSet "time" (.str (hhmmss t)) params0
  let params2 := assocSet "pass" (.str "aurora") params1
  ⟨data, [params2], .ok (some 1)⟩

/-- The speed conversion step of `listener_telemetry` (lines 204-206) and
everything after it. -/
def listenerSpeedStep (t : ℕ) (data : List (String × PyVal)) : ListenerOut :=
  match assocGet "speed" data with
  | some sv =>
      match pyTimes36 sv with
      | some sv' => listenerFinish t (assocSet "speed" sv' data)
      | Option.none => ⟨data, [], .exn⟩
  | Option.none => listenerFinish t data

/-- `data.get("chase", False)` truthiness: the chase-observer guard of
`listener_telemetry`. -/
def chaseFlag (data : List (String × PyVal)) : Bool :=
  match assocGet "chase" data with
  | some v => pyTruthy v
  | Option.none => pyTruthy (.bool false)

/-- `SpaceNearUs.listener_telemetry` body: skip non-chase documents,
append the `_chase` suffix to callsigns without a vehicle marker (mutating
the doc), convert the speed in place, then build and enqueue exactly one
param dict. -/
def listenerTelemetry (doc : ListenerDoc) : ListenerOut :=
  let data := doc.data
  if !chaseFlag data then ⟨data, [], .ok Option.none⟩
  else
    match assocGet "callsign" data with
    | some (.str cs) =>
        let data1 :=
          if !strContains cs "chase" && !strContains cs "car" then
            assocSet "callsign" (.str (cs ++ "_chase")) data
          else data
        listenerSpeedStep doc.timeCreated data1
    | some _ => ⟨data, [], .exn⟩
    | Option.none => ⟨data, [], .exn⟩

/-- Which of the fallible operations inside one `uploader_thread` loop
iteration raise: the queue `get`, `_post_to_track`, the
`logger.exception` call inside the inner handler, `task_done`, the
`qsize`/`logger.debug` bookkeeping, and the `logger.exception` call in the
outer handler. -/
structure FaultProfile where
  getRaises : Bool
  postRaises : Bool
  innerLogRaises : Bool
  taskDoneRaises : Bool
  debugLogRaises : Bool
  outerLogRaises : Bool

/-- A fallible Python statement: raises or returns. -/
def pyStmt (raises : Bool) : Except Unit Unit :=
  if raises then Except.error () else Except.ok ()

/-- The protected part of the loop body (everything under the outer
`try`). -/
def uploaderBody (f : FaultProfile) : Except Unit Unit := do
  pyStmt f.getRaises
  match pyStmt f.postRaises with
  | Except.ok _ => pure ()
  | Except.error _ => pyStmt f.innerLogRaises
  pyStmt f.taskDoneRaises
  pyStmt f.debugLogRaises

/-- One iteration of the `uploader_thread` loop, with its outer
catch-all handler whose logging is itself wrapped in `try: ... except:
pass`. -/
def uploaderIteration (f : FaultProfile) : Except Unit Unit :=
  match uploaderBody f with
  | Except.ok _ => Except.ok ()
  | Except.error _ =>
      match pyStmt f.outerLogRaises with
      | Except.ok _ => Except.ok ()
      | Except.error _ => Except.ok ()

/-- Run `n` iterations of the worker loop against an arbitrary schedule of
faults, counting completed iterations; an `Except.error` outcome would be
the thread dying. -/
def uploaderRun (faults : ℕ → FaultProfile) : ℕ → Except Unit ℕ
  | 0 => Except.ok 0
  | n + 1 =>
      match uploaderRun faults n with
      | Except.ok k =>
          match uploaderIteration (faults n) with
          | Except.ok _ => Except.ok (k + 1)
          | Except.error e => Except.error e
      | Except.error e => Except.error e

/-- Fold `payload_telemetry` over a document sequence, tracking the dedup
state (the only cross-call state it touches). -/
def runPayload (st : DedupState) (docs : List PayloadDoc) : DedupState :=
  docs.foldl (fun s d => (payloadTelemetry s d).state) st

/-- The dedup-state well-formedness carried through the proofs: the id
list has no duplicates, the mapping has no duplicate keys, and the two
track exactly the same identifiers. -/
def goodState (st : DedupState) : Prop :=
  st.recentDocIds.Nodup ∧
  (st.recentDocReceivers.map Prod.fst).Nodup ∧
  st.recentDocIds.toFinset = (st.recentDocReceivers.map Prod.fst).toFinset

/-- 32 distinct fresh event ids, enough to trigger eviction. -/
def evictionRun : List (String × Finset String) :=
  (List.range 32).map (fun i => (toString i, (∅ : Finset String)))

/-!  ## Theorems  -/

theorem assocGet_assocSet_self {β : Type} (k : String) (v : β)
    (l : List (String × β)) : assocGet k (assocSet k v l) = some v := by
  induction l with
  | nil => simp [assocGet, assocSet]
  | cons p rest ih =>
      obtain ⟨k', v'⟩ := p
      by_cases h : k' = k
      · simp [assocGet, assocSet, h]
      · simp [assocGet, assocSet, h, ih]

theorem assocGet_assocSet_ne {β : Type} {k k' : String} (v : β)
    (l : List (String × β)) (h : k' ≠ k) :
    assocGet k (assocSet k' v l) = assocGet k l := by
  induction l with
  | nil => simp [assocGet, assocSet, h]
  | cons p rest ih =>
      obtain ⟨k'', v''⟩ := p
      by_cases h2 : k'' = k'
      · simp [assocGet, assocSet, h2, h]
      · simp only [assocSet, h2, if_false]
        by_cases h3 : k'' = k
        · simp [assocGet, h3]
        · simp [assocGet, h3, ih]

theorem assocGet_eq_none_iff {β : Type} (k : String) (l : List (String × β)) :
    assocGet k l = Option.none ↔ k ∉ l.map Prod.fst := by
  induction l with
  | nil => simp [assocGet]
  | cons p rest ih =>
      obtain ⟨k', v'⟩ := p
      by_cases h : k' = k
      · simp [assocGet, h]
      · simp [assocGet, h, ih, Ne.symm h]

theorem mem_keys_assocErase {β : Type} (k a : String) (l : List (String × β)) :
    k ∈ (assocErase a l).map Prod.fst ↔ k ∈ l.map Prod.fst ∧ k ≠ a := by
  simp only [assocErase, List.mem_map, List.mem_filter]
  constructor
  · rintro ⟨p, ⟨hp, hne⟩, rfl⟩
    exact ⟨⟨p, hp, rfl⟩, by simpa using hne⟩
  · rintro ⟨⟨p, hp, rfl⟩, hne⟩
    exact ⟨p, ⟨hp, by simpa using hne⟩, rfl⟩

theorem nodup_keys_assocErase {β : Type} (a : String) (l : List (String × β))
    (h : (l.map Prod.fst).Nodup) : ((assocErase a l).map Prod.fst).Nodup :=
  ((List.filter_sublist l).map Prod.fst).nodup h

theorem keys_assocSet {β : Type} (k : String) (v : β) (l : List (String × β)) :
    (assocSet k v l).map Prod.fst =
      if k ∈ l.map Prod.fst then l.map Prod.fst else l.map Prod.fst ++ [k] := by
  induction l with
  | nil => simp [assocSet]
  | cons p rest ih =>
      obtain ⟨k', v'⟩ := p
      by_cases h : k' = k
      · simp [assocSet, h]
      · simp only [assocSet, h, if_false, List.map_cons, ih]
        by_cases h2 : k ∈ rest.map Prod.fst
        · simp [h2, Ne.symm h]
        · simp [h2, Ne.symm h]

/-- C1: a first-seen VehiclePosition event id is recorded, its contributor
set C is stored and returned whole; an already-tracked id presented with C'
yields exactly C' minus the stored set, the stored set is replaced by C'
(not the union), and when the difference is empty `payload_telemetry`
enqueues nothing, increments nothing and returns the nothing-to-do
outcome. -/
theorem dedup_report_contributors
    (st : DedupState) (docId : String) (C Cnew : Finset String) :
    (assocGet docId st.recentDocReceivers = Option.none →
      (dedupStep st docId C).2 = some C ∧
      assocGet docId (dedupStep st docId C).1.recentDocReceivers = some C ∧
      docId ∈ (dedupStep st docId C).1.recentDocIds) ∧
    (∀ stored, assocGet docId st.recentDocReceivers = some stored →
      (dedupStep st docId Cnew).2 =
        (if Cnew \ stored = ∅ then Option.none else some (Cnew \ stored)) ∧
      assocGet docId (dedupStep st docId Cnew).1.recentDocReceivers = some Cnew) ∧
    (∀ doc : PayloadDoc, ∀ stored, fixInvalidFlag doc.data = false →
      assocGet doc.docId st.recentDocReceivers = some stored →
      doc.receivers \ stored = ∅ →
      (payloadTelemetry st doc).enqueued = [] ∧
      (payloadTelemetry st doc).increment = 0 ∧
      (payloadTelemetry st doc).result = PyResult.ok Option.none) := by
  refine ⟨?_, ?_, ?_⟩
  · intro h
    unfold dedupStep
    rw [h]
    simp [assocGet_assocSet_self]
  · intro stored h
    unfold dedupStep
    rw [h]
    by_cases hd : Cnew \ stored = ∅ <;> simp [hd, assocGet_assocSet_self]
  · intro doc stored hfix h hd
    unfold payloadTelemetry
    rw [hfix]
    unfold dedupStep
    rw [h]
    simp [hd]

/-- C1 witness: a concrete first-seen run, a tracked update with a new
contributor, and a tracked update with no new contributors. -/
theorem dedup_report_contributors_witness :
    ((dedupStep initState "x" {"A"}).2 = some {"A"} ∧
     assocGet "x" (dedupStep initState "x" {"A"}).1.recentDocReceivers = some {"A"} ∧
     "x" ∈ (dedupStep initState "x" {"A"}).1.recentDocIds) ∧
    ((dedupStep (dedupStep initState "x" {"A"}).1 "x" {"A", "B"}).2 =
        (if ({"A", "B"} : Finset String) \ {"A"} = ∅ then Option.none
         else some (({"A", "B"} : Finset String) \ {"A"})) ∧
     assocGet "x"
        (dedupStep (dedupStep initState "x" {"A"}).1 "x" {"A", "B"}).1.recentDocReceivers =
        some {"A", "B"}) ∧
    ((payloadTelemetry (dedupStep initState "x" {"A"}).1 ⟨"x", [], {"A"}⟩).enqueued = [] ∧
     (payloadTelemetry (dedupStep initState "x" {"A"}).1 ⟨"x", [], {"A"}⟩).increment = 0 ∧
     (payloadTelemetry (dedupStep initState "x" {"A"}).1 ⟨"x", [], {"A"}⟩).result =
        PyResult.ok Option.none) := by
  refine ⟨?_, ?_, ?_⟩
  · exact (dedup_report_contributors initState "x" {"A"} {"A"}).1 (by decide)
  · exact (dedup_report_contributors (dedupStep initState "x" {"A"}).1 "x" {"A"}
      {"A", "B"}).2.1 {"A"} (by decide)
  · exact (dedup_report_contributors (dedupStep initState "x" {"A"}).1 "x" {"A"}
      {"A"}).2.2 ⟨"x", [], {"A"}⟩ {"A"} (by decide) (by decide) (by decide)

theorem mem_keys_foldl_erase {β : Type} (rem : List String) (m : List (String × β))
    (k : String) :
    (k ∈ ((rem.foldl (fun acc i => assocErase i acc) m).map Prod.fst)) ↔
      (k ∈ m.map Prod.fst ∧ k ∉ rem) := by
  induction rem generalizing m with
  | nil => simp
  | cons a rest ih =>
      simp only [List.foldl_cons, ih, mem_keys_assocErase, List.mem_cons]
      tauto

theorem nodup_keys_foldl_erase {β : Type} (rem : List String) (m : List (String × β))
    (h : (m.map Prod.fst).Nodup) :
    ((rem.foldl (fun acc i => assocErase i acc) m).map Prod.fst).Nodup := by
  induction rem generalizing m with
  | nil => exact h
  | cons a rest ih => exact ih _ (nodup_keys_assocErase a m h)

theorem goodState_dedupStep (st : DedupState) (i : String) (r : Finset String)
    (h : goodState st) : goodState (dedupStep st i r).1 := by
  obtain ⟨hids, hkeys, hset⟩ := h
  unfold dedupStep
  cases hg : assocGet i st.recentDocReceivers with
  | some stored =>
      have hkmem : i ∈ st.recentDocReceivers.map Prod.fst := by
        by_contra hmem
        rw [← assocGet_eq_none_iff] at hmem
        rw [hg] at hmem
        exact Option.noConfusion hmem
      by_cases hd : r \ stored = ∅ <;>
        simp only [hd, if_true, if_false] <;>
        exact ⟨hids, by rw [keys_assocSet]; simp [hkmem, hkeys],
          by rw [keys_assocSet]; simp [hkmem, hset]⟩
  | none =>
      have hkmem : i ∉ st.recentDocReceivers.map Prod.fst :=
        (assocGet_eq_none_iff _ _).1 hg
      have hidsmem : i ∉ st.recentDocIds := by
        intro hmem
        exact hkmem (List.mem_toFinset.1 (hset ▸ List.mem_toFinset.2 hmem))
      by_cases hlen : 30 < st.recentDocIds.length
      · simp only [hlen, if_true]
        set n := st.recentDocIds.length - 30 with hn
        set m' := (st.recentDocIds.take n).foldl (fun acc i => assocErase i acc)
          st.recentDocReceivers with hm'
        have hkm' : ∀ k, k ∈ m'.map Prod.fst ↔
            (k ∈ st.recentDocReceivers.map Prod.fst ∧ k ∉ st.recentDocIds.take n) :=
          fun k => mem_keys_foldl_erase _ _ k
        have hile : i ∉ m'.map Prod.fst := fun hx => hkmem ((hkm' i).1 hx).1
        have hnodrop : (st.recentDocIds.drop n).Nodup :=
          (List.drop_sublist n st.recentDocIds).nodup hids
        have hnom' : (m'.map Prod.fst).Nodup := nodup_keys_foldl_erase _ _ hkeys
        have hdisj :=
          (List.nodup_append.1 ((List.take_append_drop n st.recentDocIds) ▸ hids)).2.2
      -- elements of the kept suffix are exactly the surviving mapping keys
        have hdropkeys : ∀ k, k ∈ st.recentDocIds.drop n ↔ k ∈ m'.map Prod.fst := by
          intro k
          rw [hkm' k]
          constructor
          · intro hk
            refine ⟨?_, fun htake => hdisj htake hk⟩
            have : k ∈ st.recentDocIds :=
              (List.drop_sublist n st.recentDocIds).mem hk
            exact List.mem_toFinset.1 (hset ▸ List.mem_toFinset.2 this)
          · rintro ⟨hk, htake⟩
            have : k ∈ st.recentDocIds :=
              List.mem_toFinset.1 (hset.symm ▸ List.mem_toFinset.2 hk)
            rcases (List.mem_append.1
              ((List.take_append_drop n st.recentDocIds) ▸ this)) with h1 | h1
            · exact absurd h1 htake
            · exact h1
        refine ⟨?_, ?_, ?_⟩
        · rw [List.nodup_append]
          exact ⟨hnodrop, List.nodup_singleton i,
            fun a ha hb => by
              rw [List.mem_singleton] at hb
              subst hb
              exact hidsmem ((List.drop_sublist n st.recentDocIds).mem ha)⟩
        · rw [keys_assocSet]
          simp only [hile, if_false]
          rw [List.nodup_append]
          exact ⟨hnom', List.nodup_singleton i,
            fun a ha hb => by
              rw [List.mem_singleton] at hb
              subst hb
              exact hile ha⟩
        · rw [keys_assocSet]
          simp only [hile, if_false]
          ext k
          simp only [List.toFinset_append, Finset.mem_union, List.mem_toFinset,
            List.mem_singleton]
          rw [hdropkeys k]
      · simp only [hlen, if_false]
        refine ⟨?_, ?_, ?_⟩
        · rw [List.nodup_append]
          exact ⟨hids, List.nodup_singleton i,
            fun a ha hb => by
              rw [List.mem_singleton] at hb
              subst hb
              exact hidsmem ha⟩
        · rw [keys_assocSet]
          simp only [hkmem, if_false]
          rw [List.nodup_append]
          exact ⟨hkeys, List.nodup_singleton i,
            fun a ha hb => by
              rw [List.mem_singleton] at hb
              subst hb
              exact hkmem ha⟩
        · rw [keys_assocSet]
          simp only [hkmem, if_false]
          ext k
          simp only [List.toFinset_append, Finset.mem_union, List.mem_toFinset,
            List.mem_singleton]
          constructor
          · rintro (hk | hk)
            · exact Or.inl (List.mem_toFinset.1 (hset ▸ List.mem_toFinset.2 hk))
            · exact Or.inr hk
          · rintro (hk | hk)
            · exact Or.inl (List.mem_toFinset.1 (hset.symm ▸ List.mem_toFinset.2 hk))
            · exact Or.inr hk

theorem goodState_initState : goodState initState := by
  refine ⟨List.nodup_nil, List.nodup_nil, rfl⟩

theorem goodState_runDedup (st : DedupState) (events : List (String × Finset String))
    (h : goodState st) : goodState (runDedup st events) := by
  induction events generalizing st with
  | nil => exact h
  | cons e rest ih => exact ih _ (goodState_dedupStep st e.1 e.2 h)

theorem dedupStep_fresh (st : DedupState) (i : String) (r : Finset String)
    (hg : assocGet i st.recentDocReceivers = Option.none) :
    (dedupStep st i r).1.recentDocIds =
      (if 30 < st.recentDocIds.length then
        st.recentDocIds.drop (st.recentDocIds.length - 30)
      else st.recentDocIds) ++ [i] ∧
    (dedupStep st i r).2 = some r := by
  unfold dedupStep
  rw [hg]
  by_cases h : 30 < st.recentDocIds.length <;> simp [h]

/-- Processing a run of pairwise-fresh event ids from a state whose id list
is the `(length - 31)`-suffix of the ids seen so far leaves the id list the
corresponding suffix of the extended history. -/
theorem runDedup_fresh_suffix (events : List (String × Finset String))
    (ps : List String) (st : DedupState)
    (hgood : goodState st)
    (hids : st.recentDocIds = ps.drop (ps.length - 31))
    (hnodup : (ps ++ events.map Prod.fst).Nodup) :
    (runDedup st events).recentDocIds =
      (ps ++ events.map Prod.fst).drop ((ps.length + events.length) - 31) := by
  induction events generalizing ps st with
  | nil => simpa using hids
  | cons e rest ih =>
      obtain ⟨i, r⟩ := e
      have hfreshps : i ∉ ps := by
        have := (List.nodup_append.1 hnodup).2.2
        exact fun hmem => this hmem (by simp)
      have hfreshids : i ∉ st.recentDocIds := by
        rw [hids]
        exact fun hmem => hfreshps ((List.drop_sublist _ ps).mem hmem)
      have hkeys : assocGet i st.recentDocReceivers = Option.none := by
        rw [assocGet_eq_none_iff]
        intro hmem
        exact hfreshids
          (List.mem_toFinset.1 (hgood.2.2.symm ▸ List.mem_toFinset.2 hmem))
      obtain ⟨hstep, -⟩ := dedupStep_fresh st i r hkeys
      have hlen : st.recentDocIds.length = ps.length - (ps.length - 31) := by
        rw [hids, List.length_drop]
      have hids' : (dedupStep st i r).1.recentDocIds =
          (ps ++ [i]).drop ((ps.length + 1) - 31) := by
        rw [hstep]
        by_cases hcase : ps.length ≤ 30
        · have h1 : ¬ 30 < st.recentDocIds.length := by omega
          have h2 : ps.length - 31 = 0 := by omega
          have h3 : (ps.length + 1) - 31 = 0 := by omega
          rw [if_neg h1, hids, h2, h3, List.drop_zero, List.drop_zero]
        · have h1 : 30 < st.recentDocIds.length := by omega
          rw [if_pos h1, hids, List.length_drop]
          have h2 : ps.length - (ps.length - 31) - 30 = 1 := by omega
          rw [h2, List.drop_drop, List.drop_append_of_le_length (by omega)]
          congr 2
          omega
      have hgood' : goodState (dedupStep st i r).1 := goodState_dedupStep st i r hgood
      have hrest := ih (ps ++ [i]) (dedupStep st i r).1 hgood'
        (by simpa using hids') (by simpa using hnodup)
      have hfold : runDedup st ((i, r) :: rest) = runDedup (dedupStep st i r).1 rest := rfl
      rw [hfold, hrest, List.append_assoc, List.singleton_append]
      simp only [List.map_cons]
      congr 1
      simp only [List.length_append, List.length_cons, List.length_nil]
      omega

/-- C2 counterexample: after 32 (> 30) distinct first-seen event ids the
dedup cache holds 31 ids, not 30 — the eviction check runs before the new
id is appended, so the steady state is 31 tracked events. -/
theorem dedup_cache_holds_31_not_30 :
    (runDedup initState evictionRun).recentDocIds.length = 31 ∧
    (runDedup initState evictionRun).recentDocIds.length ≠ 30 := by
  constructor <;> decide

/-- C2 amended: processing distinct fresh event ids leaves the cache
holding exactly the `min (count, 31)` most recently first-seen ids (the
trim to 30 happens before a new id is recorded, so up to 31 are tracked),
the mapping keys track the id list exactly, and presenting an id that is
no longer tracked (e.g. an evicted one) behaves as first seen, returning
every contributor as new. -/
theorem dedup_cache_bound :
    (∀ events : List (String × Finset String),
      (events.map Prod.fst).Nodup →
      (runDedup initState events).recentDocIds =
        (events.map Prod.fst).drop (events.length - 31) ∧
      (runDedup initState events).recentDocIds.toFinset =
        ((runDedup initState events).recentDocReceivers.map Prod.fst).toFinset) ∧
    (∀ st docId receivers,
      assocGet docId st.recentDocReceivers = Option.none →
      (dedupStep st docId receivers).2 = some receivers ∧
      docId ∈ (dedupStep st docId receivers).1.recentDocIds) := by
  constructor
  · intro events hnodup
    constructor
    · have := runDedup_fresh_suffix events [] initState goodState_initState
        (by simp [initState]) (by simpa using hnodup)
      simpa using this
    · exact (goodState_runDedup initState events goodState_initState).2.2
  · intro st docId receivers hg
    obtain ⟨h1, h2⟩ := dedupStep_fresh st docId receivers hg
    exact ⟨h2, by rw [h1]; simp⟩

/-- C2 witness: a 32-event fresh run keeps the last 31 ids, and an evicted
id is treated as first seen. -/
theorem dedup_cache_bound_witness :
    ((runDedup initState evictionRun).recentDocIds =
        (evictionRun.map Prod.fst).drop (evictionRun.length - 31) ∧
      (runDedup initState evictionRun).recentDocIds.toFinset =
        ((runDedup initState evictionRun).recentDocReceivers.map Prod.fst).toFinset) ∧
    ((dedupStep (runDedup initState evictionRun) "0" {"A"}).2 = some {"A"} ∧
      "0" ∈ (dedupStep (runDedup initState evictionRun) "0" {"A"}).1.recentDocIds) := by
  constructor
  · exact dedup_cache_bound.1 evictionRun (by decide)
  · exact dedup_cache_bound.2 (runDedup initState evictionRun) "0" {"A"} (by decide)

theorem payloadFinish_state (st : DedupState) (data : List (String × PyVal))
    (nr : Finset String) : (payloadFinish st data nr).state = st := by
  unfold payloadFinish
  dsimp only
  split <;> rfl

theorem goodState_payloadTelemetry (st : DedupState) (doc : PayloadDoc)
    (h : goodState st) : goodState (payloadTelemetry st doc).state := by
  unfold payloadTelemetry
  split
  · exact h
  · split
    · next st' heq =>
        have hd := goodState_dedupStep st doc.docId doc.receivers h
        rw [heq] at hd
        exact hd
    · next st' nr heq =>
        rw [payloadFinish_state]
        have hd := goodState_dedupStep st doc.docId doc.receivers h
        rw [heq] at hd
        exact hd

theorem goodState_runPayload (st : DedupState) (docs : List PayloadDoc)
    (h : goodState st) : goodState (runPayload st docs) := by
  induction docs generalizing st with
  | nil => exact h
  | cons d rest ih => exact ih _ (goodState_payloadTelemetry st d h)

/-- C3: after processing any sequence of payload telemetry documents from
the initial state, the set of ids in the ordered recent-id list equals the
key set of the id-to-receivers mapping: no orphaned mapping entries, no
listed id without a stored receiver set. -/
theorem dedup_state_invariant (docs : List PayloadDoc) :
    (runPayload initState docs).recentDocIds.toFinset =
      ((runPayload initState docs).recentDocReceivers.map Prod.fst).toFinset :=
  (goodState_runPayload initState docs goodState_initState).2.2

theorem uploaderIteration_ok (f : FaultProfile) :
    uploaderIteration f = Except.ok () := by
  unfold uploaderIteration
  split
  · rfl
  · split <;> rfl

/-- C5: the upload worker loop never terminates due to an exception —
whatever combination of the queue get, the delivery attempt, the inner
logging, `task_done`, the debug bookkeeping, or the outer logging raises
at each iteration, every iteration completes and the loop keeps going: `n`
scheduled iterations always complete as `n` processed items, never as a
propagated error. -/
theorem uploader_never_dies (faults : ℕ → FaultProfile) (n : ℕ) :
    uploaderRun faults n = Except.ok n := by
  induction n with
  | zero => rfl
  | succ k ih =>
      unfold uploaderRun
      rw [ih, uploaderIteration_ok]

theorem copyFields_cons (pr : String × String) (fs : List (String × String))
    (data params : List (String × PyVal)) :
    copyFields (pr :: fs) data params =
      copyFields fs data
        (match assocGet pr.2 data with
         | some v => assocSet pr.1 v params
         | Option.none => params) := rfl

theorem assocGet_copyFields_not_target (fs : List (String × String))
    (data params : List (String × PyVal)) (k : String)
    (h : ∀ pr ∈ fs, pr.1 ≠ k) :
    assocGet k (copyFields fs data params) = assocGet k params := by
  induction fs generalizing params with
  | nil => rfl
  | cons pr rest ih =>
      rw [copyFields_cons]
      have h1 : pr.1 ≠ k := h pr (by simp)
      have h2 : ∀ q ∈ rest, q.1 ≠ k := fun q hq => h q (by simp [hq])
      cases hq : assocGet pr.2 data with
      | some v => simp only [hq]; rw [ih _ h2, assocGet_assocSet_ne v params h1]
      | none => simp only [hq]; exact ih _ h2

/-- The `time` parameter after `_copy_fields`: the doc's time attribute
when present, the `required` default `"00:00:00"` otherwise. -/
theorem assocGet_time_copyFields (data : List (String × PyVal)) :
    assocGet "time" (copyFields payloadFields data payloadRequired) =
      (match assocGet "time" data with
       | some v => some v
       | Option.none => some (PyVal.str "00:00:00")) := by
  simp only [payloadFields]
  rw [copyFields_cons, copyFields_cons, copyFields_cons, copyFields_cons,
    copyFields_cons]
  rw [assocGet_copyFields_not_target _ data _ "time" (by decide)]
  cases ht : assocGet "time" data with
  | some v => simp only [ht]; rw [assocGet_assocSet_self]
  | none =>
      simp only [ht]
      cases h1 : assocGet "payload" data <;> cases h2 : assocGet "latitude" data <;>
        cases h3 : assocGet "longitude" data <;> cases h4 : assocGet "altitude" data <;>
        simp only [h1, h2, h3, h4] <;>
        simp [assocGet_assocSet_ne, assocGet, payloadRequired]

theorem payloadFinish_spec (st : DedupState) (data : List (String × PyVal))
    (nr : Finset String) (t : String)
    (htime : assocGet "time" (copyFields payloadFields data payloadRequired) =
      some (PyVal.str t)) :
    (payloadFinish st data nr).enqueued.length = nr.card ∧
    (payloadFinish st data nr).increment = nr.card ∧
    (payloadFinish st data nr).result = PyResult.ok (some nr.card) ∧
    ((payloadFinish st data nr).enqueued.map (fun p => assocGet "callsign" p)) =
      (nr.sort (· ≤ ·)).map (fun c => some (PyVal.str c)) ∧
    (∀ p ∈ (payloadFinish st data nr).enqueued,
      ∀ q ∈ (payloadFinish st data nr).enqueued,
      ∀ k, k ≠ "callsign" → assocGet k p = assocGet k q) ∧
    (∀ p ∈ (payloadFinish st data nr).enqueued,
      assocGet "time" p = some (PyVal.str (stripColons t))) := by
  unfold payloadFinish
  dsimp only
  rw [htime]
  dsimp only
  refine ⟨by simp, rfl, rfl, ?_, ?_, ?_⟩
  · simp only [List.map_map]
    refine List.map_congr_left ?_
    intro c hc
    exact assocGet_assocSet_self "callsign" (PyVal.str c) _
  · intro p hp q hq k hk
    obtain ⟨c, hc, rfl⟩ := List.mem_map.1 hp
    obtain ⟨c', hc', rfl⟩ := List.mem_map.1 hq
    rw [assocGet_assocSet_ne _ _ (Ne.symm hk), assocGet_assocSet_ne _ _ (Ne.symm hk)]
  · intro p hp
    obtain ⟨c, hc, rfl⟩ := List.mem_map.1 hp
    rw [assocGet_assocSet_ne _ _ (by decide), assocGet_assocSet_ne _ _ (by decide),
      assocGet_assocSet_ne _ _ (by decide), assocGet_assocSet_self]

/-- C4: when the dedup step yields the new-contributor set `N`, exactly
`|N|` upload parameter dicts are enqueued — one per new contributor, in
sorted order, pairwise identical except for the `callsign` field — and the
`good_uploads` counter is incremented by exactly `|N|` at enqueue time
(delivery is not involved). -/
theorem payload_fanout (st : DedupState) (doc : PayloadDoc) (N : Finset String)
    (hfix : fixInvalidFlag doc.data = false)
    (htime : timeOk doc.data = true)
    (hded : (dedupStep st doc.docId doc.receivers).2 = some N) :
    (payloadTelemetry st doc).enqueued.length = N.card ∧
    (payloadTelemetry st doc).increment = N.card ∧
    ((payloadTelemetry st doc).enqueued.map (fun p => assocGet "callsign" p)) =
      (N.sort (· ≤ ·)).map (fun c => some (PyVal.str c)) ∧
    (∀ p ∈ (payloadTelemetry st doc).enqueued,
      ∀ q ∈ (payloadTelemetry st doc).enqueued,
      ∀ k, k ≠ "callsign" → assocGet k p = assocGet k q) := by
  have hpt : payloadTelemetry st doc =
      payloadFinish (dedupStep st doc.docId doc.receivers).1 doc.data N := by
    unfold payloadTelemetry
    rw [hfix]
    simp only [Bool.false_eq_true, if_false]
    have hpair : dedupStep st doc.docId doc.receivers =
        ((dedupStep st doc.docId doc.receivers).1, some N) := by
      rw [← hded]
    rw [hpair]
  obtain ⟨t, ht⟩ : ∃ t,
      assocGet "time" (copyFields payloadFields doc.data payloadRequired) =
        some (PyVal.str t) := by
    rw [assocGet_time_copyFields]
    unfold timeOk at htime
    cases hv : assocGet "time" doc.data with
    | some v =>
        rw [hv] at htime
        cases v <;> simp_all
    | none => rw [hv] at htime; exact ⟨"00:00:00", rfl⟩
  obtain ⟨h1, h2, h3, h4, h5, h6⟩ :=
    payloadFinish_spec (dedupStep st doc.docId doc.receivers).1 doc.data N t ht
  rw [hpt]
  exact ⟨h1, h2, h4, h5⟩

/-- C4 witness: a never-seen event with contributors `{"A", "B"}` yields
two enqueued parameter dicts (callsigns `A` and `B`), a counter increment
of two, and dicts agreeing on every non-callsign key. -/
theorem payload_fanout_witness :
    (payloadTelemetry initState ⟨"x", [], {"A", "B"}⟩).enqueued.length = 2 ∧
    (payloadTelemetry initState ⟨"x", [], {"A", "B"}⟩).increment = 2 ∧
    ((payloadTelemetry initState ⟨"x", [], {"A", "B"}⟩).enqueued.map
        (fun p => assocGet "callsign" p)) =
      (({"A", "B"} : Finset String).sort (· ≤ ·)).map (fun c => some (PyVal.str c)) := by
  obtain ⟨h1, h2, h3, h4⟩ := payload_fanout initState ⟨"x", [], {"A", "B"}⟩ {"A", "B"}
    (by decide) (by decide) (by decide)
  exact ⟨h1.trans (by decide), h2.trans (by decide), h3⟩

/-- C7: a VehiclePosition doc with a truthy `_fix_invalid` flag yields no
upload params (and no counter bump); an ObserverPosition doc not flagged
chase yields no upload params; an ObserverPosition doc never yields more
than one upload param dict. -/
theorem mapper_skip_rules :
    (∀ (st : DedupState) (doc : PayloadDoc) (v : PyVal),
      assocGet "_fix_invalid" doc.data = some v → pyTruthy v = true →
      (payloadTelemetry st doc).enqueued = [] ∧
      (payloadTelemetry st doc).increment = 0) ∧
    (∀ doc : ListenerDoc, chaseFlag doc.data = false →
      (listenerTelemetry doc).enqueued = []) ∧
    (∀ doc : ListenerDoc, (listenerTelemetry doc).enqueued.length ≤ 1) := by
  refine ⟨?_, ?_, ?_⟩
  · intro st doc v hv htruthy
    have hfix : fixInvalidFlag doc.data = true := by
      unfold fixInvalidFlag
      rw [hv]
      exact htruthy
    unfold payloadTelemetry
    rw [hfix]
    exact ⟨rfl, rfl⟩
  · intro doc hchase
    unfold listenerTelemetry
    dsimp only
    rw [hchase]
    rfl
  · intro doc
    unfold listenerTelemetry listenerSpeedStep listenerFinish
    dsimp only
    split
    · simp
    · split
      · split
        · split <;> simp
        · simp
      · simp
      · simp

/-- C7 witness: an invalid-flagged payload doc and a non-chase listener
doc yield nothing; a chase listener doc yields one param dict. -/
theorem mapper_skip_rules_witness :
    (payloadTelemetry initState
        ⟨"x", [("_fix_invalid", PyVal.bool true)], {"A"}⟩).enqueued = [] ∧
    (payloadTelemetry initState
        ⟨"x", [("_fix_invalid", PyVal.bool true)], {"A"}⟩).increment = 0 ∧
    (listenerTelemetry ⟨[("latitude", PyVal.int 3)], 0⟩).enqueued = [] ∧
    (listenerTelemetry ⟨[("chase", PyVal.bool true),
        ("callsign", PyVal.str "AB")], 0⟩).enqueued.length ≤ 1 := by
  obtain ⟨h1, h2⟩ := mapper_skip_rules.1 initState
    ⟨"x", [("_fix_invalid", PyVal.bool true)], {"A"}⟩ (PyVal.bool true) rfl rfl
  exact ⟨h1, h2, mapper_skip_rules.2.1 ⟨[("latitude", PyVal.int 3)], 0⟩ rfl,
    mapper_skip_rules.2.2 ⟨[("chase", PyVal.bool true), ("callsign", PyVal.str "AB")], 0⟩⟩

theorem listenerFinish_data (t : ℕ) (data : List (String × PyVal)) :
    (listenerFinish t data).data = data := rfl

theorem listenerSpeedStep_data_ne (t : ℕ) (data : List (String × PyVal))
    (k : String) (hk : k ≠ "speed") :
    assocGet k (listenerSpeedStep t data).data = assocGet k data := by
  unfold listenerSpeedStep
  cases hs : assocGet "speed" data with
  | some sv =>
      simp only [hs]
      cases hts : pyTimes36 sv with
      | some sv' =>
          simp only [hts, listenerFinish_data]
          exact assocGet_assocSet_ne _ _ (Ne.symm hk)
      | none => simp only [hts]
  | none => simp only [hs, listenerFinish_data]

theorem listenerSpeedStep_speed (t : ℕ) (data : List (String × PyVal))
    (v v' : PyVal) (hv : assocGet "speed" data = some v)
    (hv' : pyTimes36 v = some v') :
    assocGet "speed" (listenerSpeedStep t data).data = some v' := by
  unfold listenerSpeedStep
  rw [hv]
  dsimp only
  rw [hv']
  dsimp only [listenerFinish_data]
  exact assocGet_assocSet_self _ _ _

/-- C6 counterexample: `listener_telemetry` mutates the event in place —
a chase doc whose callsign `"AB"` carries no vehicle marker comes out of
the pipeline with its callsign attribute rewritten to `"AB_chase"`. -/
theorem listener_mutates_callsign :
    assocGet "callsign" (listenerTelemetry
        ⟨[("chase", PyVal.bool true), ("callsign", PyVal.str "AB")], 0⟩).data =
      some (PyVal.str "AB_chase") ∧
    assocGet "callsign"
        ([("chase", PyVal.bool true), ("callsign", PyVal.str "AB")] :
          List (String × PyVal)) = some (PyVal.str "AB") ∧
    PyVal.str "AB_chase" ≠ PyVal.str "AB" := by
  refine ⟨rfl, rfl, ?_⟩
  intro h
  injection h with h
  exact absurd h (by decide)

/-- C6 amended: the Field Mapper does mutate ObserverPosition events, and
exactly like this: non-chase events are untouched; on chase events only
the callsign and speed attributes can change — the callsign gets the
`_chase` suffix appended exactly when it contains neither `"chase"` nor
`"car"`, and a numeric speed is replaced by its ×3.6 conversion; every
other attribute keeps its value. -/
theorem listener_mutation_spec (doc : ListenerDoc) :
    (chaseFlag doc.data = false → (listenerTelemetry doc).data = doc.data) ∧
    (∀ k, k ≠ "callsign" → k ≠ "speed" →
      assocGet k (listenerTelemetry doc).data = assocGet k doc.data) ∧
    (∀ cs, chaseFlag doc.data = true →
      assocGet "callsign" doc.data = some (PyVal.str cs) →
      strContains cs "chase" = false → strContains cs "car" = false →
      assocGet "callsign" (listenerTelemetry doc).data =
        some (PyVal.str (cs ++ "_chase"))) ∧
    (∀ cs, chaseFlag doc.data = true →
      assocGet "callsign" doc.data = some (PyVal.str cs) →
      (strContains cs "chase" = true ∨ strContains cs "car" = true) →
      assocGet "callsign" (listenerTelemetry doc).data = some (PyVal.str cs)) ∧
    (∀ v v', chaseFlag doc.data = true →
      (∃ cs, assocGet "callsign" doc.data = some (PyVal.str cs)) →
      assocGet "speed" doc.data = some v → pyTimes36 v = some v' →
      assocGet "speed" (listenerTelemetry doc).data = some v') := by
  refine ⟨?_, ?_, ?_, ?_, ?_⟩
  · intro h
    unfold listenerTelemetry
    dsimp only
    rw [h]
    rfl
  · intro k hk1 hk2
    unfold listenerTelemetry
    dsimp only
    cases hch : chaseFlag doc.data with
    | false => simp only [hch, Bool.not_false, if_true]
    | true =>
        simp only [hch, Bool.not_true, Bool.false_eq_true, if_false]
        cases hcs : assocGet "callsign" doc.data with
        | some v =>
            cases v with
            | str cs =>
                simp only
                rw [listenerSpeedStep_data_ne _ _ _ hk2]
                split
                · exact assocGet_assocSet_ne _ _ (Ne.symm hk1)
                · rfl
            | int n => rfl
            | float q => rfl
            | bool b => rfl
            | none => rfl
            | dict l => rfl
            | list l => rfl
        | none => rfl
  · intro cs hch hcs hno1 hno2
    unfold listenerTelemetry
    dsimp only
    rw [hch, hcs]
    simp only [Bool.not_true, Bool.false_eq_true, if_false, hno1, hno2,
      Bool.not_false, Bool.and_self, if_true]
    rw [listenerSpeedStep_data_ne _ _ _ (by decide)]
    exact assocGet_assocSet_self _ _ _
  · intro cs hch hcs hyes
    unfold listenerTelemetry
    dsimp only
    rw [hch, hcs]
    have hcond : (!strContains cs "chase" && !strContains cs "car") = false := by
      rcases hyes with h | h <;> rw [h] <;> simp
    simp only [Bool.not_true, Bool.false_eq_true, if_false, hcond]
    rw [listenerSpeedStep_data_ne _ _ _ (by decide)]
    exact hcs
  · intro v v' hch hcs hv hv'
    obtain ⟨cs, hcs⟩ := hcs
    unfold listenerTelemetry
    dsimp only
    rw [hch, hcs]
    simp only [Bool.not_true, Bool.false_eq_true, if_false]
    split
    · refine listenerSpeedStep_speed _ _ v v' ?_ hv'
      rw [assocGet_assocSet_ne _ _ (by decide)]
      exact hv
    · exact listenerSpeedStep_speed _ _ v v' hv hv'

/-- C6 witness: a chase doc gets `_chase` appended to its callsign and its
speed converted to km/h; a non-chase doc is left untouched. -/
theorem listener_mutation_spec_witness :
    assocGet "callsign" (listenerTelemetry
        ⟨[("chase", PyVal.bool true), ("callsign", PyVal.str "AB"),
          ("speed", PyVal.float 10)], 0⟩).data = some (PyVal.str "AB_chase") ∧
    assocGet "speed" (listenerTelemetry
        ⟨[("chase", PyVal.bool true), ("callsign", PyVal.str "AB"),
          ("speed", PyVal.float 10)], 0⟩).data =
      some (PyVal.float (10 * (18 / 5))) ∧
    (listenerTelemetry ⟨[("latitude", PyVal.int 3)], 0⟩).data =
      [("latitude", PyVal.int 3)] := by
  refine ⟨?_, ?_, ?_⟩
  · exact (listener_mutation_spec _).2.2.1 "AB" rfl rfl rfl rfl
  · exact (listener_mutation_spec _).2.2.2.2 (PyVal.float 10)
      (PyVal.float (10 * (18 / 5))) rfl ⟨"AB", rfl⟩ rfl rfl
  · exact (listener_mutation_spec _).1 rfl

theorem digit_ne_colon {c : Char} (h : c.isDigit = true) : c ≠ ':' := by
  intro he
  subst he
  exact absurd h (by decide)

theorem stripColons_hhmmss (a b c d e f : Char)
    (ha : a ≠ ':') (hb : b ≠ ':') (hc : c ≠ ':') (hd : d ≠ ':')
    (he : e ≠ ':') (hf : f ≠ ':') :
    stripColons (String.mk [a, b, ':', c, d, ':', e, f]) =
      String.mk [a, b, c, d, e, f] := by
  unfold stripColons
  congr 1
  simp [List.filter, ha, hb, hc, hd, he, hf]

/-- Any new-receiver fan-out of `payload_telemetry` carries the time param
`stripColons t` where `t` is the time value `_copy_fields` left in the
params. -/
theorem payload_time_key (st : DedupState) (doc : PayloadDoc) (t : String)
    (hfix : fixInvalidFlag doc.data = false)
    (ht : assocGet "time" (copyFields payloadFields doc.data payloadRequired) =
      some (PyVal.str t)) :
    ∀ p ∈ (payloadTelemetry st doc).enqueued,
      assocGet "time" p = some (PyVal.str (stripColons t)) := by
  intro p hp
  unfold payloadTelemetry at hp
  rw [hfix] at hp
  simp only [Bool.false_eq_true, if_false] at hp
  rcases hds : dedupStep st doc.docId doc.receivers with ⟨st', o⟩
  rw [hds] at hp
  cases o with
  | none => simp at hp
  | some nr =>
      dsimp only at hp
      exact (payloadFinish_spec st' doc.data nr t ht).2.2.2.2.2 p hp

/-- C8: for a VehiclePosition event whose time attribute is an `HH:MM:SS`
digit string, every enqueued param dict delivers that string with the
colons removed; when the time attribute is absent, the `"00:00:00"`
default is delivered as `"000000"`. -/
theorem payload_time_format (st : DedupState) (doc : PayloadDoc)
    (a b c d e f : Char)
    (ha : a.isDigit = true) (hb : b.isDigit = true) (hc : c.isDigit = true)
    (hd : d.isDigit = true) (he : e.isDigit = true) (hf : f.isDigit = true)
    (hfix : fixInvalidFlag doc.data = false) :
    (assocGet "time" doc.data =
        some (PyVal.str (String.mk [a, b, ':', c, d, ':', e, f])) →
      ∀ p ∈ (payloadTelemetry st doc).enqueued,
        assocGet "time" p = some (PyVal.str (String.mk [a, b, c, d, e, f]))) ∧
    (assocGet "time" doc.data = Option.none →
      ∀ p ∈ (payloadTelemetry st doc).enqueued,
        assocGet "time" p = some (PyVal.str "000000")) := by
  constructor
  · intro ht p hp
    have h1 : assocGet "time" (copyFields payloadFields doc.data payloadRequired) =
        some (PyVal.str (String.mk [a, b, ':', c, d, ':', e, f])) := by
      rw [assocGet_time_copyFields, ht]
    have h2 := payload_time_key st doc _ hfix h1 p hp
    rw [h2, stripColons_hhmmss a b c d e f (digit_ne_colon ha) (digit_ne_colon hb)
      (digit_ne_colon hc) (digit_ne_colon hd) (digit_ne_colon he) (digit_ne_colon hf)]
  · intro ht p hp
    have h1 : assocGet "time" (copyFields payloadFields doc.data payloadRequired) =
        some (PyVal.str "00:00:00") := by
      rw [assocGet_time_copyFields, ht]
    have h2 := payload_time_key st doc _ hfix h1 p hp
    rw [h2]
    rfl

/-- C8 witness: time `"07:08:09"` is delivered as `"070809"`, and an
absent time is delivered as `"000000"`. -/
theorem payload_time_format_witness :
    assocGet "time"
        ((payloadTelemetry initState
          ⟨"x", [("time", PyVal.str "07:08:09")], {"A"}⟩).enqueued.headI) =
      some (PyVal.str "070809") ∧
    assocGet "time"
        ((payloadTelemetry initState ⟨"y", [], {"A"}⟩).enqueued.headI) =
      some (PyVal.str "000000") := by
  constructor
  · have hmem : (payloadTelemetry initState
        ⟨"x", [("time", PyVal.str "07:08:09")], {"A"}⟩).enqueued.headI ∈
        (payloadTelemetry initState
          ⟨"x", [("time", PyVal.str "07:08:09")], {"A"}⟩).enqueued := by
      obtain ⟨h1, -, -, -⟩ := payload_fanout initState
        ⟨"x", [("time", PyVal.str "07:08:09")], {"A"}⟩ {"A"}
        (by decide) (by decide) (by decide)
      rcases henq : (payloadTelemetry initState
          ⟨"x", [("time", PyVal.str "07:08:09")], {"A"}⟩).enqueued with - | ⟨p, rest⟩
      · rw [henq] at h1
        exact absurd h1 (by decide)
      · simp [List.headI]
    exact (payload_time_format initState ⟨"x", [("time", PyVal.str "07:08:09")], {"A"}⟩
      '0' '7' '0' '8' '0' '9' rfl rfl rfl rfl rfl rfl rfl).1 rfl _ hmem
  · have hmem : (payloadTelemetry initState ⟨"y", [], {"A"}⟩).enqueued.headI ∈
        (payloadTelemetry initState ⟨"y", [], {"A"}⟩).enqueued := by
      obtain ⟨h1, -, -, -⟩ := payload_fanout initState ⟨"y", [], {"A"}⟩ {"A"}
        (by decide) (by decide) (by decide)
      rcases henq : (payloadTelemetry initState ⟨"y", [], {"A"}⟩).enqueued with - | ⟨p, rest⟩
      · rw [henq] at h1
        exact absurd h1 (by decide)
      · simp [List.headI]
    exact (payload_time_format initState ⟨"y", [], {"A"}⟩
      '0' '0' '0' '0' '0' '0' rfl rfl rfl rfl rfl rfl rfl).2 rfl _ hmem

theorem allFloatsToStr_dict (l : List (String × PyVal)) :
    allFloatsToStr (PyVal.dict l) =
      PyVal.dict (l.map fun p => (p.1, allFloatsToStr p.2)) := by
  simp only [allFloatsToStr, List.map_attach]
  congr 1
  exact List.pmap_eq_map _ (fun p => (p.1, allFloatsToStr p.2)) l _

theorem allFloatsToStr_list (l : List PyVal) :
    allFloatsToStr (PyVal.list l) = PyVal.list (l.map allFloatsToStr) := by
  simp only [allFloatsToStr, List.map_attach]
  congr 1
  exact List.pmap_eq_map _ allFloatsToStr l _

/-- C10: `_all_floats_to_str` preserves everything that is not a float:
dict key lists (hence key sets) and list lengths are unchanged, non-float
scalars (strings, ints, booleans, None) come back untouched, and floats —
and only floats — are replaced by their string rendering. -/
theorem all_floats_to_str_structure :
    (∀ l : List (String × PyVal), ∃ l',
      allFloatsToStr (PyVal.dict l) = PyVal.dict l' ∧
      l'.map Prod.fst = l.map Prod.fst ∧ l'.length = l.length) ∧
    (∀ l : List PyVal, ∃ l',
      allFloatsToStr (PyVal.list l) = PyVal.list l' ∧ l'.length = l.length) ∧
    (∀ s, allFloatsToStr (PyVal.str s) = PyVal.str s) ∧
    (∀ n, allFloatsToStr (PyVal.int n) = PyVal.int n) ∧
    (∀ b, allFloatsToStr (PyVal.bool b) = PyVal.bool b) ∧
    (allFloatsToStr PyVal.none = PyVal.none) ∧
    (∀ q, allFloatsToStr (PyVal.float q) = PyVal.str (pyFloatStr q)) := by
  refine ⟨?_, ?_, fun s => by simp [allFloatsToStr], fun n => by simp [allFloatsToStr],
    fun b => by simp [allFloatsToStr], by simp [allFloatsToStr],
    fun q => by simp [allFloatsToStr]⟩
  · intro l
    refine ⟨l.map (fun p => (p.1, allFloatsToStr p.2)), allFloatsToStr_dict l, ?_, by simp⟩
    simp [List.map_map, Function.comp]
  · intro l
    exact ⟨l.map allFloatsToStr, allFloatsToStr_list l, by simp⟩

theorem int_log_eq (b : ℕ) (hb : 1 < b) (r : ℚ) (hr : 0 < r) (e : ℤ)
    (h1 : (b : ℚ) ^ e ≤ r) (h2 : r < (b : ℚ) ^ (e + 1)) : Int.log b r = e := by
  have hle := (Int.zpow_le_iff_le_log hb hr).1 h1
  have hlt := (Int.lt_zpow_iff_log_lt hb hr).1 h2
  omega

theorem round_rat_eq (q : ℚ) (n : ℤ) (h1 : (n : ℚ) ≤ q + 1 / 2)
    (h2 : q + 1 / 2 < n + 1) : round q = n := by
  rw [round_eq, Int.floor_eq_iff]
  exact ⟨h1, h2⟩

theorem sig12_of (q : ℚ) (e s : ℤ) (hlog : Int.log 10 q = e)
    (hround : round (q * (10 : ℚ) ^ (11 - e)) = s) (hne : s ≠ 10 ^ 12) :
    sig12 q = (s, e) := by
  unfold sig12
  dsimp only
  rw [hlog, hround, if_neg hne]

theorem nearestDouble_pos (q : ℚ) (hq : 0 < q) (e m : ℤ)
    (hlog : Int.log 2 q = e)
    (hround : round (q * (2 : ℚ) ^ (52 - e)) = m) :
    nearestDouble q = (m : ℚ) * (2 : ℚ) ^ (e - 52) := by
  unfold nearestDouble
  rw [if_neg (ne_of_gt hq)]
  dsimp only
  rw [if_neg (not_lt.2 hq.le), abs_of_pos hq, hlog, hround, one_mul]

theorem nearestDouble_q1 :
    nearestDouble ((5404319552844595 : ℚ) / 2 ^ 54) =
      (5404319552844595 : ℚ) / 2 ^ 54 := by
  have h := nearestDouble_pos ((5404319552844595 : ℚ) / 2 ^ 54) (by norm_num)
    (-2) 5404319552844595
    (int_log_eq 2 (by norm_num) _ (by norm_num) (-2) (by norm_num) (by norm_num))
    (round_rat_eq _ _ (by norm_num) (by norm_num))
  rw [h]
  norm_num

theorem nearestDouble_q2 :
    nearestDouble ((5404319552844596 : ℚ) / 2 ^ 54) =
      (5404319552844596 : ℚ) / 2 ^ 54 := by
  have h := nearestDouble_pos ((5404319552844596 : ℚ) / 2 ^ 54) (by norm_num)
    (-2) 5404319552844596
    (int_log_eq 2 (by norm_num) _ (by norm_num) (-2) (by norm_num) (by norm_num))
    (round_rat_eq _ _ (by norm_num) (by norm_num))
  rw [h]
  norm_num

theorem nearestDouble_03 :
    nearestDouble (3 / 10) = (5404319552844595 : ℚ) / 2 ^ 54 := by
  have h := nearestDouble_pos (3 / 10) (by norm_num) (-2) 5404319552844595
    (int_log_eq 2 (by norm_num) _ (by norm_num) (-2) (by norm_num) (by norm_num))
    (round_rat_eq _ _ (by norm_num) (by norm_num))
  rw [h]
  norm_num

theorem nearestDouble_one : nearestDouble 1 = 1 := by
  have h := nearestDouble_pos 1 (by norm_num) 0 4503599627370496
    (by rw [Int.log_one_right])
    (round_rat_eq _ _ (by norm_num) (by norm_num))
  rw [h]
  norm_num

theorem pyFloatStr_q1 :
    pyFloatStr ((5404319552844595 : ℚ) / 2 ^ 54) = "0.3" := by
  have hsig : sig12 ((5404319552844595 : ℚ) / 2 ^ 54) = (300000000000, -1) :=
    sig12_of _ (-1) 300000000000
      (int_log_eq 10 (by norm_num) _ (by norm_num) (-1) (by norm_num) (by norm_num))
      (round_rat_eq _ _ (by norm_num) (by norm_num))
      (by norm_num)
  unfold pyFloatStr
  rw [if_neg (by norm_num), if_neg (by norm_num)]
  unfold pyFloatStrPos
  rw [hsig]
  decide

theorem pyFloatStr_q2 :
    pyFloatStr ((5404319552844596 : ℚ) / 2 ^ 54) = "0.3" := by
  have hsig : sig12 ((5404319552844596 : ℚ) / 2 ^ 54) = (300000000000, -1) :=
    sig12_of _ (-1) 300000000000
      (int_log_eq 10 (by norm_num) _ (by norm_num) (-1) (by norm_num) (by norm_num))
      (round_rat_eq _ _ (by norm_num) (by norm_num))
      (by norm_num)
  unfold pyFloatStr
  rw [if_neg (by norm_num), if_neg (by norm_num)]
  unfold pyFloatStrPos
  rw [hsig]
  decide

theorem pyFloatStr_one : pyFloatStr 1 = "1.0" := by
  have hsig : sig12 1 = (100000000000, 0) :=
    sig12_of _ 0 100000000000 (Int.log_one_right 10)
      (round_rat_eq _ _ (by norm_num) (by norm_num))
      (by norm_num)
  unfold pyFloatStr
  rw [if_neg (by norm_num), if_neg (by norm_num)]
  unfold pyFloatStrPos
  rw [hsig]
  decide

/-- C9 counterexample: the float 5404319552844596/2^54 (the binary64 just
above 0.3, i.e. 0.30000000000000004) is a genuine double (a fixpoint of
binary64 rounding), `_all_floats_to_str` renders it as `"0.3"` — Python 2
`str`'s 12 significant figures — and parsing `"0.3"` (decimal value 3/10)
back to the nearest double yields the different double 5404319552844595/2^54:
the stringification is not round-trippable. -/
theorem float_str_not_roundtrip :
    allFloatsToStr (PyVal.float ((5404319552844596 : ℚ) / 2 ^ 54)) =
      PyVal.str "0.3" ∧
    nearestDouble ((5404319552844596 : ℚ) / 2 ^ 54) =
      (5404319552844596 : ℚ) / 2 ^ 54 ∧
    nearestDouble (3 / 10) ≠ (5404319552844596 : ℚ) / 2 ^ 54 := by
  refine ⟨?_, nearestDouble_q2, ?_⟩
  · rw [show allFloatsToStr (PyVal.float ((5404319552844596 : ℚ) / 2 ^ 54)) =
      PyVal.str (pyFloatStr ((5404319552844596 : ℚ) / 2 ^ 54)) from by
        simp [allFloatsToStr]]
    rw [pyFloatStr_q2]
  · rw [nearestDouble_03]
    norm_num

/-- C9 amended: `_all_floats_to_str` renders floats with Python 2 `str` —
12 significant decimal figures, not the shortest round-trippable string.
`1.0` still round-trips (it renders as `"1.0"`, whose value 1 is its own
nearest double), but the two distinct binary64 values on either side of
0.3 both render as `"0.3"`, so floats that need more than 12 significant
digits lose precision and cannot be recovered from the string. -/
theorem float_str_12sf :
    allFloatsToStr (PyVal.float 1) = PyVal.str "1.0" ∧
    nearestDouble 1 = 1 ∧
    pyFloatStr ((5404319552844595 : ℚ) / 2 ^ 54) = "0.3" ∧
    pyFloatStr ((5404319552844596 : ℚ) / 2 ^ 54) = "0.3" ∧
    nearestDouble ((5404319552844595 : ℚ) / 2 ^ 54) =
      (5404319552844595 : ℚ) / 2 ^ 54 ∧
    nearestDouble ((5404319552844596 : ℚ) / 2 ^ 54) =
      (5404319552844596 : ℚ) / 2 ^ 54 ∧
    (5404319552844595 : ℚ) / 2 ^ 54 ≠ (5404319552844596 : ℚ) / 2 ^ 54 := by
  refine ⟨?_, nearestDouble_one, pyFloatStr_q1, pyFloatStr_q2,
    nearestDouble_q1, nearestDouble_q2, by norm_num⟩
  rw [show allFloatsToStr (PyVal.float 1) = PyVal.str (pyFloatStr 1) from by
    simp [allFloatsToStr]]
  rw [pyFloatStr_one]

end SpaceNearUs
